import Mathlib

/-!
Verification of the leader-elect repository (Bully leader election in Rust)
against its natural-language specification.

The development shallowly embeds the relevant Rust code:

* `src/src/message.rs` — the wire codec (`MessageType`, `Message`,
  `str_to_message`, `message_to_str`, `receive_message`).
* `src/src/bully.rs` — the election state machine (`elect`,
  `send_message`, `send_elect_message`, `announce_victory`, the bodies of
  the `heartbeat` and `check_leader` loops, `handle_message`, `connect`).

Rust strings are modelled as lists of characters; `u8` values as `Nat`
with explicit range conditions where overflow matters; fallible code
returns `Except`; the network is modelled by an environment mapping each
peer id to the behaviour of its connection, and every performed send is
recorded on an explicit wire trace.
-/

set_option maxHeartbeats 1000000
set_option maxRecDepth 10000

namespace LeaderElect

/-- Decidable equality for `Except`, component-wise. -/
instance {ε α : Type} [DecidableEq ε] [DecidableEq α] : DecidableEq (Except ε α) := fun a b =>
  match a, b with
  | Except.ok x, Except.ok y =>
    if h : x = y then Decidable.isTrue (by rw [h])
    else Decidable.isFalse (fun hc => h (by injection hc))
  | Except.ok _, Except.error _ => Decidable.isFalse (fun hc => Except.noConfusion hc)
  | Except.error _, Except.ok _ => Decidable.isFalse (fun hc => Except.noConfusion hc)
  | Except.error x, Except.error y =>
    if h : x = y then Decidable.isTrue (by rw [h])
    else Decidable.isFalse (fun hc => h (by injection hc))

/-- A Rust string slice, modelled as its list of characters. -/
abbrev Str := List Char

/-- message.rs `MessageType`: the four kinds of protocol message, with
discriminants 0..=3. -/
inductive MessageType where
  | HeartBeat
  | Elect
  | Alive
  | Victory
deriving DecidableEq, Repr, Fintype

/-- The numeric discriminant of a `MessageType` (`msg.message_type as u8`). -/
def MessageType.toCode : MessageType → Nat
  | .HeartBeat => 0
  | .Elect => 1
  | .Alive => 2
  | .Victory => 3

/-- The error values produced by the embedded code.  The source boxes
string-typed errors (`LeaderElectError`) or system errors; here each
distinct error site gets one constructor. -/
inductive Err where
  /-- message.rs: the second field of a frame is absent ("fail to read type"). -/
  | failReadType
  /-- message.rs: `parse::<u8>()` failed on the sender field (`ParseIntError`). -/
  | senderParseErr
  /-- message.rs: `parse::<MessageType>()` failed ("fail to read message_type"). -/
  | typeParseErr
  /-- message.rs / bully.rs: a read returned zero bytes. -/
  | zeroBytes
  /-- bully.rs: `send_message` through an absent connection. -/
  | connMissing
  /-- bully.rs: I/O failure while writing a frame. -/
  | sendIo
  /-- bully.rs: non-timeout I/O failure while reading the `Elect` reply. -/
  | readIo
  /-- bully.rs: `SystemTime::duration_since` failed (clock went backwards). -/
  | timeErr
  /-- bully.rs: reply to `Elect` decoded to a non-`Alive` message. -/
  | wrongType (t : MessageType)
deriving DecidableEq, Repr

/-- message.rs `Message`: a framed unit on the wire.  Field order follows
the source struct. -/
structure Message where
  message_type : MessageType
  sender_id : Nat
deriving DecidableEq, Repr

/-- message.rs `Message::new(sender_id, message_type)`. -/
def Message.new (sender_id : Nat) (message_type : MessageType) : Message :=
  { message_type := message_type, sender_id := sender_id }

/-- message.rs `Message::get_message_type`. -/
def Message.get_message_type (m : Message) : MessageType := m.message_type

/-- Whitespace as trimmed by `str::trim` (restricted to the ASCII
whitespace characters, which are the only ones arising here). -/
def isWS (c : Char) : Bool :=
  c = ' ' || c = '\t' || c = '\n' || c = '\r'

/-- Rust `str::trim`: drop whitespace from both ends. -/
def trimStr (s : Str) : Str :=
  ((s.dropWhile isWS).reverse.dropWhile isWS).reverse

/-- Helper for `splitColon`: accumulate the current field (reversed). -/
def splitColonAux : Str → Str → List Str
  | [], acc => [acc.reverse]
  | c :: rest, acc =>
    if c = ':' then acc.reverse :: splitColonAux rest []
    else splitColonAux rest (c :: acc)

/-- Rust `str::split(':')`: the list of ':'-separated fields (always
nonempty; an input without ':' yields the one-element list). -/
def splitColon (s : Str) : List Str := splitColonAux s []

/-- The numeric value of an ASCII digit, if `c` is one. -/
def digitVal (c : Char) : Option Nat :=
  if '0' ≤ c ∧ c ≤ '9' then some (c.toNat - '0'.toNat) else none

/-- Accumulate the decimal value of a digit string. -/
def parseNatAux : Str → Nat → Option Nat
  | [], acc => some acc
  | c :: rest, acc =>
    match digitVal c with
    | some d => parseNatAux rest (acc * 10 + d)
    | none => none

/-- Rust `str::parse::<u8>()`: an optional leading plus sign, then a
nonempty run of decimal digits whose value fits in a `u8`. -/
def parse_u8 (s : Str) : Option Nat :=
  let body := match s with
    | '+' :: rest => rest
    | _ => s
  match body with
  | [] => none
  | _ =>
    match parseNatAux body 0 with
    | some n => if n < 256 then some n else none
    | none => none

/-- message.rs `impl FromStr for MessageType`: exact match on the four
one-digit codes. -/
def MessageType.fromStr (s : Str) : Option MessageType :=
  if s = ['0'] then some .HeartBeat
  else if s = ['1'] then some .Elect
  else if s = ['2'] then some .Alive
  else if s = ['3'] then some .Victory
  else none

/-- message.rs `impl FromStr for Message`: split on ':', parse the first
field as the sender id (u8) and the second as the message type; any
further fields are never consumed by the two `next()` calls. -/
def Message.fromStr (s : Str) : Except Err Message :=
  match splitColon s with
  | [] => Except.error Err.senderParseErr
  | idStr :: rest =>
    match parse_u8 idStr with
    | none => Except.error Err.senderParseErr
    | some i =>
      match rest with
      | [] => Except.error Err.failReadType
      | tyStr :: _ =>
        match MessageType.fromStr tyStr with
        | none => Except.error Err.typeParseErr
        | some t => Except.ok (Message.new i t)

/-- message.rs `str_to_message`: trim the line, then parse it. -/
def str_to_message (inp_str : Str) : Except Err Message :=
  Message.fromStr (trimStr inp_str)

/-- Decimal digits of `n`, most significant first, via explicit fuel
(matching the usual shortest-decimal rendering of `format!`). -/
def natToStrAux : Nat → Nat → Str
  | 0, _ => []
  | fuel + 1, n =>
    if n < 10 then [Nat.digitChar n]
    else natToStrAux fuel (n / 10) ++ [Nat.digitChar (n % 10)]

/-- The shortest decimal rendering of a natural number. -/
def natToStr (n : Nat) : Str := natToStrAux (n + 1) n

/-- message.rs `message_to_str`:
`format!("\x7b\x7d:\x7b\x7d", msg.sender_id, msg.message_type as u8)` —
sender id, a colon, and the type code, with no terminator. -/
def message_to_str (msg : Message) : Str :=
  natToStr msg.sender_id ++ ':' :: natToStr msg.message_type.toCode

/-- message.rs `receive_message`: `line` is the result of one `read_line`
call on the stream; zero bytes read is an error, otherwise the line is
decoded. -/
def receive_message (line : Str) : Except Err Message :=
  if line.length = 0 then Except.error Err.zeroBytes
  else str_to_message line

/-! ## bully.rs: constants, data model, and the network environment -/

/-- bully.rs `RETRY`. -/
def RETRY : Nat := 10

/-- bully.rs `INIT_CONN_TIMEOUT`, in milliseconds. -/
def INIT_CONN_TIMEOUT : Nat := 10000

/-- bully.rs `ALIVE_TIMEOUT`, in milliseconds. -/
def ALIVE_TIMEOUT : Nat := 1000

/-- bully.rs `HEARTBEAT_INTERVAL`, in milliseconds. -/
def HEARTBEAT_INTERVAL : Nat := 2000

/-- bully.rs `LEADER_CHECK_INTERVAL`, in milliseconds. -/
def LEADER_CHECK_INTERVAL : Nat := 3000

/-- An IPv4 socket address (`std::net::SocketAddrV4`), reduced to the
pair of numbers that identify it. -/
structure SocketAddrV4 where
  ip : Nat
  port : Nat
deriving DecidableEq, Repr

/-- bully.rs `Peer`.  The `conn : Option<TcpStream>` field is modelled by
presence of the handle; the behaviour of the underlying stream lives in
the environment, keyed by the peer id. -/
structure Peer where
  id : Nat
  address : SocketAddrV4
  conn : Option Unit
deriving DecidableEq, Repr

/-- bully.rs `Node`.  The `BTreeMap<u8, Peer>` keyed by peer id is
modelled as the list of its entries in ascending key order (the key of
each entry equals `Peer.id`, as established by `parse_peer_opt`).
`SystemTime` is a `Nat` count of milliseconds. -/
structure Node where
  id : Nat
  advertise_address : SocketAddrV4
  peers : List Peer
  leader : Option Nat
  last_leader_heartbeat : Option Nat
deriving DecidableEq, Repr

/-- What one blocking read on a peer connection yields during
`send_elect_message`: a timeout, a non-timeout I/O error, or a line of
bytes (the empty line modelling a zero-byte read). -/
inductive ReadResult where
  | timedOut
  | ioErr
  | line (s : Str)
deriving DecidableEq, Repr

/-- The behaviour of one peer connection for the step under analysis:
whether `write_all` succeeds, and what the subsequent read yields. -/
structure ConnBehavior where
  sendOk : Bool
  read : ReadResult
deriving DecidableEq, Repr

/-- The network environment: the behaviour of the connection to each
peer id. -/
abbrev Env := Nat → ConnBehavior

/-- The trace of messages put on the wire: receiver id paired with the
message written to that peer connection. -/
abbrev Wire := List (Nat × Message)

/-- message.rs `ElectResponse`. -/
inductive ElectResponse where
  | ResponseTimeOut
  | BuillerAlive
deriving DecidableEq, Repr

/-- bully.rs `ElectionResult`. -/
inductive ElectionResult where
  | Win
  | Fail
deriving DecidableEq, Repr

/-! ## bully.rs: sending -/

/-- bully.rs `send_message`: build `Message::new(sender_id, message_type)`
and write its encoding to the peer outbound stream; error if the
connection handle is absent or the write fails.  A successful write is
recorded on the wire trace. -/
def send_message (sender_id : Nat) (peer : Peer) (message_type : MessageType)
    (env : Env) (w : Wire) : Except Err Wire :=
  match peer.conn with
  | some _ =>
    if (env peer.id).sendOk then Except.ok (w ++ [(peer.id, Message.new sender_id message_type)])
    else Except.error Err.sendIo
  | none => Except.error Err.connMissing

/-- bully.rs `send_elect_message`: send `Elect`, then read one line from
the same stream under `ALIVE_TIMEOUT`.  A timed-out read yields
`ResponseTimeOut`; any other read error is returned; a zero-byte read is
an error; otherwise the line is decoded and must be an `Alive` message,
yielding `BuillerAlive`. -/
def send_elect_message (sender_id : Nat) (peer : Peer) (env : Env) (w : Wire) :
    Except Err (ElectResponse × Wire) :=
  match send_message sender_id peer MessageType.Elect env w with
  | Except.error e => Except.error e
  | Except.ok w1 =>
    match peer.conn with
    | none => Except.error Err.connMissing
    | some _ =>
      match (env peer.id).read with
      | ReadResult.timedOut => Except.ok (ElectResponse.ResponseTimeOut, w1)
      | ReadResult.ioErr => Except.error Err.readIo
      | ReadResult.line s =>
        if s.length = 0 then Except.error Err.zeroBytes
        else
          match str_to_message s with
          | Except.error e => Except.error e
          | Except.ok m =>
            match m.message_type with
            | MessageType.Alive => Except.ok (ElectResponse.BuillerAlive, w1)
            | t => Except.error (Err.wrongType t)

/-- Send one message to each peer of the list in order, stopping at the
first failure (the common shape of the loops in `announce_victory` and
`heartbeat`, whose bodies are `send_message(..)?`). -/
def sendToAll (sender_id : Nat) (message_type : MessageType) :
    List Peer → Env → Wire → Except Err Wire
  | [], _, w => Except.ok w
  | p :: ps, env, w =>
    match send_message sender_id p message_type env w with
    | Except.error e => Except.error e
    | Except.ok w1 => sendToAll sender_id message_type ps env w1

/-! ## bully.rs: the election -/

/-- Checked `u8` addition: Rust `a + b` on `u8` is a program error
(overflow panic) when the mathematical sum exceeds 255. -/
def u8_add (a b : Nat) : Option Nat :=
  if a + b < 256 then some (a + b) else none

/-- The `elect` loop over `peers.range_mut(node.id + 1..)`: probe each
higher peer in ascending order; an `Alive` reply aborts with `Fail`, a
timeout moves to the next peer, any error propagates (`?`); if the list
is exhausted the election is won. -/
def electLoop (sender_id : Nat) (env : Env) :
    List Peer → Wire → Except Err (ElectionResult × Wire)
  | [], w => Except.ok (ElectionResult.Win, w)
  | p :: rest, w =>
    match send_elect_message sender_id p env w with
    | Except.error e => Except.error e
    | Except.ok (ElectResponse.BuillerAlive, w1) => Except.ok (ElectionResult.Fail, w1)
    | Except.ok (ElectResponse.ResponseTimeOut, w1) => electLoop sender_id env rest w1

/-- The sub-map `node.peers.range_mut(node.id + 1..)` as a list: the
entries with key at least `node.id + 1`, in ascending order; `none` when
computing the range start `node.id + 1` overflows `u8`. -/
def higher_peers (node : Node) : Option (List Peer) :=
  (u8_add node.id 1).map fun lo => node.peers.filter fun p => lo ≤ p.id

/-- bully.rs `elect`: run the election loop over the higher peers.
`none` models the `u8` overflow panic of `node.id + 1` at
`node.id = 255`. -/
def elect (node : Node) (env : Env) (w : Wire) :
    Option (Except Err (ElectionResult × Wire)) :=
  (higher_peers node).map fun ps => electLoop node.id env ps w

/-- bully.rs `announce_victory`: send `Victory` to every peer of
`peers.range_mut(..node.id)`, that is every peer with id below the node
id, in ascending order, propagating the first send error. -/
def announce_victory (node : Node) (env : Env) (w : Wire) : Except Err Wire :=
  sendToAll node.id MessageType.Victory
    (node.peers.filter fun p => p.id < node.id) env w

/-! ## bully.rs: the timer loop bodies -/

/-- The body of one iteration of the bully.rs `heartbeat` loop (after the
sleep, under the write lock): when the node believes itself leader, send
`HeartBeat` to every peer with smaller id; otherwise do nothing. -/
def heartbeat_step (node : Node) (env : Env) (w : Wire) : Except Err Wire :=
  match node.leader with
  | none => Except.ok w
  | some leader =>
    if leader ≠ node.id then Except.ok w
    else
      sendToAll node.id MessageType.HeartBeat
        (node.peers.filter fun p => p.id < node.id) env w

/-- The node after the leader is declared lost: both `leader` and
`last_leader_heartbeat` cleared. -/
def clearLeader (node : Node) : Node :=
  { node with leader := none, last_leader_heartbeat := none }

/-- The node after winning an election from the lost-leader state:
`leader` set to the own id, `last_leader_heartbeat` still cleared. -/
def wonLeader (node : Node) : Node :=
  { node with leader := some node.id, last_leader_heartbeat := none }

/-- The body of one iteration of the bully.rs `check_leader` loop (after
the sleep, under the write lock), at wall-clock time `now`: if no leader
heartbeat was ever recorded, do nothing; otherwise, if the last heartbeat
is older than `LEADER_CHECK_INTERVAL`, clear the leader state, run
`elect`, and on `Win` take leadership and announce victory.  The outer
`Option` is `none` for the `u8` overflow panic inside `elect`; errors
from `duration_since`, `elect` and `announce_victory` propagate. -/
def check_leader_step (now : Nat) (env : Env) (node : Node) (w : Wire) :
    Option (Except Err (Node × Wire)) :=
  match node.last_leader_heartbeat with
  | none => some (Except.ok (node, w))
  | some last =>
    if now < last then some (Except.error Err.timeErr)
    else if LEADER_CHECK_INTERVAL < now - last then
      match elect (clearLeader node) env w with
      | none => none
      | some (Except.error e) => some (Except.error e)
      | some (Except.ok (ElectionResult.Fail, w1)) =>
        some (Except.ok (clearLeader node, w1))
      | some (Except.ok (ElectionResult.Win, w1)) =>
        match announce_victory (wonLeader node) env w1 with
        | Except.error e => some (Except.error e)
        | Except.ok w2 => some (Except.ok (wonLeader node, w2))
    else some (Except.ok (node, w))

/-- The body of one iteration of the bully.rs `handle_message` loop for an
inbound connection: read one message with `receive_message` and then do
nothing with it — the handling after the read is a bare `TODO` stub in
the source, so no reply is written and no state is touched.  The wire
trace of this node is returned unchanged on success. -/
def handle_message_step (line : Str) (w : Wire) : Except Err Wire :=
  match receive_message line with
  | Except.error e => Except.error e
  | Except.ok _ => Except.ok w

/-! ## bully.rs: connect -/

/-- The outcome of one `TcpStream::connect_timeout` attempt. -/
inductive DialOutcome where
  | timedOut
  | otherErr
  | ok
deriving DecidableEq, Repr

/-- The result of bully.rs `connect`, labelled with the total number of
connect attempts performed. -/
inductive ConnectResult where
  | connected (attempts : Nat)
  | fatalTimeout (attempts : Nat)
  | fatalErr (attempts : Nat)
deriving DecidableEq, Repr

/-- The number of attempts recorded in a `ConnectResult`. -/
def ConnectResult.attempts : ConnectResult → Nat
  | .connected n => n
  | .fatalTimeout n => n
  | .fatalErr n => n

/-- The bully.rs `connect` loop: `count` is the remaining retry budget,
`attempt` the index of the attempt about to be made.  A timeout with
budget left decrements the budget and retries; a timeout with exhausted
budget, like any other connect error, returns the error; success
returns the stream.  `outcome` gives the result of each attempt. -/
def connectAux (outcome : Nat → DialOutcome) : Nat → Nat → ConnectResult
  | 0, attempt =>
    match outcome attempt with
    | DialOutcome.timedOut => ConnectResult.fatalTimeout (attempt + 1)
    | DialOutcome.otherErr => ConnectResult.fatalErr (attempt + 1)
    | DialOutcome.ok => ConnectResult.connected (attempt + 1)
  | count + 1, attempt =>
    match outcome attempt with
    | DialOutcome.timedOut => connectAux outcome count (attempt + 1)
    | DialOutcome.otherErr => ConnectResult.fatalErr (attempt + 1)
    | DialOutcome.ok => ConnectResult.connected (attempt + 1)

/-- bully.rs `connect`: dial with retry budget `RETRY`. -/
def connect (outcome : Nat → DialOutcome) : ConnectResult :=
  connectAux outcome RETRY 0

/-! ## Derived predicates -/

/-- The read on a peer connection delivers a well-formed `Alive` reply:
a nonempty line that decodes to a message of type `Alive`. -/
def AliveRead (r : ReadResult) : Prop :=
  ∃ s, r = ReadResult.line s ∧ s ≠ [] ∧
    ∃ m, str_to_message s = Except.ok m ∧ m.message_type = MessageType.Alive

/-! ## Concrete fixtures used by witnesses and counterexamples -/

/-- A throwaway address; the embedded operations never inspect it. -/
def addr0 : SocketAddrV4 := { ip := 0, port := 0 }

/-- A connected peer with id 1. -/
def peer1 : Peer := { id := 1, address := addr0, conn := some () }

/-- A connected peer with id 2. -/
def peer2 : Peer := { id := 2, address := addr0, conn := some () }

/-- A connected peer with id 3. -/
def peer3 : Peer := { id := 3, address := addr0, conn := some () }

/-- A node with id 1 whose higher peers are 2 and 3. -/
def nodeA : Node :=
  { id := 1, advertise_address := addr0, peers := [peer2, peer3],
    leader := none, last_leader_heartbeat := none }

/-- A node with id 2 that believes node 3 is the leader, last heard from
at time 0. -/
def nodeB : Node :=
  { id := 2, advertise_address := addr0, peers := [peer1, peer3],
    leader := some 3, last_leader_heartbeat := some 0 }

/-- A node with id 2 that believes itself the leader. -/
def nodeL : Node :=
  { id := 2, advertise_address := addr0, peers := [peer1, peer3],
    leader := some 2, last_leader_heartbeat := none }

/-- A node with the maximal `u8` id 255. -/
def node255 : Node :=
  { id := 255, advertise_address := addr0, peers := [peer1],
    leader := none, last_leader_heartbeat := none }

/-- A peer with id 9 whose connection handle was never populated. -/
def peerNoConn : Peer := { id := 9, address := addr0, conn := none }

/-- Every peer connection accepts writes and then times out on read. -/
def envTO : Env := fun _ => { sendOk := true, read := ReadResult.timedOut }

/-- Peer 3 answers with an `Alive` frame; every other peer times out. -/
def envAlive3 : Env := fun i =>
  if i = 3 then { sendOk := true, read := ReadResult.line ['3', ':', '2', '\n'] }
  else { sendOk := true, read := ReadResult.timedOut }

/-- Peer 2 fails its read with a non-timeout I/O error; every other peer
times out. -/
def envErr2 : Env := fun i =>
  if i = 2 then { sendOk := true, read := ReadResult.ioErr }
  else { sendOk := true, read := ReadResult.timedOut }

/-- Every dial attempt times out. -/
def dialAllTimeout : Nat → DialOutcome := fun _ => DialOutcome.timedOut

/-! ## Helper lemmas -/

theorem mem_of_mem_dropWhile {p : Char → Bool} :
    ∀ {l : Str} {x : Char}, x ∈ l.dropWhile p → x ∈ l := by
  intro l
  induction l with
  | nil => intro x h; simp [List.dropWhile] at h
  | cons a t ih =>
    intro x h
    cases hp : p a <;> simp [List.dropWhile, hp] at h
    · rcases h with h | h
      · exact h ▸ List.mem_cons_self a t
      · exact List.mem_cons_of_mem _ h
    · exact List.mem_cons_of_mem _ (ih h)

theorem mem_of_mem_trimStr {x : Char} {s : Str} (h : x ∈ trimStr s) : x ∈ s := by
  unfold trimStr at h
  rw [List.mem_reverse] at h
  have h1 := mem_of_mem_dropWhile h
  rw [List.mem_reverse] at h1
  exact mem_of_mem_dropWhile h1

theorem splitColonAux_no_colon :
    ∀ (t acc : Str), ':' ∉ t → splitColonAux t acc = [acc.reverse ++ t] := by
  intro t
  induction t with
  | nil => intro acc _; simp [splitColonAux]
  | cons c rest ih =>
    intro acc hc
    have hne : ¬(c = ':') := fun h => hc (h ▸ List.mem_cons_self c rest)
    have hrest : ':' ∉ rest := fun h => hc (List.mem_cons_of_mem _ h)
    simp [splitColonAux, hne, ih (c :: acc) hrest]

theorem splitColon_no_colon (t : Str) (h : ':' ∉ t) : splitColon t = [t] := by
  simpa [splitColon] using splitColonAux_no_colon t [] h

theorem parse_u8_lt {s : Str} {n : Nat} (h : parse_u8 s = some n) : n < 256 := by
  unfold parse_u8 at h
  dsimp only at h
  split at h
  · exact absurd h (by simp)
  · split at h
    · split at h
      · injection h with h2
        omega
      · exact absurd h (by simp)
    · exact absurd h (by simp)

theorem send_message_ok_eq {sender_id : Nat} {p : Peer} {t : MessageType} {env : Env}
    {w w1 : Wire} (h : send_message sender_id p t env w = Except.ok w1) :
    w1 = w ++ [(p.id, Message.new sender_id t)] := by
  unfold send_message at h
  split at h
  · split at h
    · injection h with h1
      exact h1.symm
    · exact absurd h (by simp)
  · exact absurd h (by simp)

theorem send_elect_message_timeout (sender_id : Nat) (p : Peer) (env : Env) (w : Wire)
    (hc : p.conn.isSome) (hs : (env p.id).sendOk = true)
    (hr : (env p.id).read = ReadResult.timedOut) :
    send_elect_message sender_id p env w
      = Except.ok (ElectResponse.ResponseTimeOut,
          w ++ [(p.id, Message.new sender_id MessageType.Elect)]) := by
  obtain ⟨u, hu⟩ := Option.isSome_iff_exists.mp hc
  simp [send_elect_message, send_message, hu, hs, hr]

theorem send_elect_message_alive (sender_id : Nat) (p : Peer) (env : Env) (w : Wire)
    (hc : p.conn.isSome) (hs : (env p.id).sendOk = true)
    (hr : AliveRead (env p.id).read) :
    send_elect_message sender_id p env w
      = Except.ok (ElectResponse.BuillerAlive,
          w ++ [(p.id, Message.new sender_id MessageType.Elect)]) := by
  obtain ⟨u, hu⟩ := Option.isSome_iff_exists.mp hc
  obtain ⟨s, hrl, hne, m, hm, hty⟩ := hr
  obtain ⟨mt, sid⟩ := m
  have hmt : mt = MessageType.Alive := hty
  subst hmt
  have hlen : ¬(s.length = 0) := by simpa [List.length_eq_zero] using hne
  simp [send_elect_message, send_message, hu, hs, hrl, hlen, hm]

theorem electLoop_all_timeout (sender_id : Nat) (env : Env) :
    ∀ (ps : List Peer) (w : Wire),
      (∀ p ∈ ps, p.conn.isSome ∧ (env p.id).sendOk = true
          ∧ (env p.id).read = ReadResult.timedOut) →
      electLoop sender_id env ps w
        = Except.ok (ElectionResult.Win,
            w ++ ps.map fun p => (p.id, Message.new sender_id MessageType.Elect)) := by
  intro ps
  induction ps with
  | nil => intro w _; simp [electLoop]
  | cons p rest ih =>
    intro w h
    obtain ⟨hc, hs, hr⟩ := h p (List.mem_cons_self p rest)
    have hrest := fun q hq => h q (List.mem_cons_of_mem _ hq)
    rw [electLoop, send_elect_message_timeout sender_id p env w hc hs hr]
    dsimp only
    rw [ih _ hrest]
    simp

theorem electLoop_first_alive (sender_id : Nat) (env : Env) :
    ∀ (l1 : List Peer) (p : Peer) (l2 : List Peer) (w : Wire),
      (∀ q ∈ l1, q.conn.isSome ∧ (env q.id).sendOk = true
          ∧ (env q.id).read = ReadResult.timedOut) →
      p.conn.isSome → (env p.id).sendOk = true → AliveRead ((env p.id).read) →
      electLoop sender_id env (l1 ++ p :: l2) w
        = Except.ok (ElectionResult.Fail,
            w ++ (l1 ++ [p]).map fun q => (q.id, Message.new sender_id MessageType.Elect)) := by
  intro l1
  induction l1 with
  | nil =>
    intro p l2 w _ hc hs hr
    rw [List.nil_append, electLoop, send_elect_message_alive sender_id p env w hc hs hr]
    simp
  | cons q rest ih =>
    intro p l2 w h hc hs hr
    obtain ⟨hqc, hqs, hqr⟩ := h q (List.mem_cons_self q rest)
    have hrest := fun x hx => h x (List.mem_cons_of_mem _ hx)
    rw [List.cons_append, electLoop, send_elect_message_timeout sender_id q env w hqc hqs hqr]
    dsimp only
    rw [ih p l2 _ hrest hc hs hr]
    simp

theorem elect_eq_loop (node : Node) (env : Env) (w : Wire) (hid : node.id < 255) :
    elect node env w
      = some (electLoop node.id env (node.peers.filter fun p => node.id + 1 ≤ p.id) w) := by
  have h2 : node.id + 1 < 256 := by omega
  simp [elect, higher_peers, u8_add, h2]

/-! ## Claim C1: elect probes higher peers in ascending order -/

/-- C1: with every higher peer reachable, `elect` sends `Elect` to the
peers above the own id one at a time in ascending id order (the probed
ids are strictly increasing, and the wire grows by exactly the probed
prefix); it returns `Fail` as soon as some higher peer replies `Alive`
(probing exactly the peers up to and including that one), and `Win` when
every higher peer times out (probing all of them). -/
theorem elect_probes_higher_ascending (node : Node) (env : Env) (w : Wire)
    (hid : node.id < 255)
    (hsort : node.peers.Pairwise fun p q => p.id < q.id) :
    ((node.peers.filter fun p => node.id + 1 ≤ p.id).map Peer.id).Pairwise (· < ·)
    ∧ ((∀ p ∈ (node.peers.filter fun p => node.id + 1 ≤ p.id),
          p.conn.isSome ∧ (env p.id).sendOk = true
            ∧ (env p.id).read = ReadResult.timedOut) →
        elect node env w = some (Except.ok (ElectionResult.Win,
          w ++ (node.peers.filter fun p => node.id + 1 ≤ p.id).map
            fun p => (p.id, Message.new node.id MessageType.Elect))))
    ∧ (∀ l1 p l2, (node.peers.filter fun q => node.id + 1 ≤ q.id) = l1 ++ p :: l2 →
        (∀ q ∈ l1, q.conn.isSome ∧ (env q.id).sendOk = true
            ∧ (env q.id).read = ReadResult.timedOut) →
        p.conn.isSome → (env p.id).sendOk = true → AliveRead ((env p.id).read) →
        elect node env w = some (Except.ok (ElectionResult.Fail,
          w ++ (l1 ++ [p]).map fun q => (q.id, Message.new node.id MessageType.Elect)))) := by
  refine ⟨?_, ?_, ?_⟩
  · exact List.pairwise_map.mpr (hsort.filter _)
  · intro h
    rw [elect_eq_loop node env w hid]
    rw [electLoop_all_timeout node.id env _ w h]
  · intro l1 p l2 hsplit h hc hs hr
    rw [elect_eq_loop node env w hid, hsplit]
    rw [electLoop_first_alive node.id env l1 p l2 w h hc hs hr]

/-- Witness for C1: node 1 with higher peers 2 and 3, both timing out,
wins and has probed both in order. -/
theorem elect_probes_higher_ascending_witness :
    elect nodeA envTO [] = some (Except.ok (ElectionResult.Win,
      [] ++ (nodeA.peers.filter fun p => nodeA.id + 1 ≤ p.id).map
        fun p => (p.id, Message.new nodeA.id MessageType.Elect))) :=
  (elect_probes_higher_ascending nodeA envTO [] (by decide) (by decide)).2.1 (by decide)

/-! ## Claim C4: transport errors during elect -/

/-- C4 counterexample: node 1 probes peers 2 and 3; the read from peer 2
fails with a non-timeout I/O error.  `elect` aborts with that error
instead of continuing with peer 3 — had the error been treated like a
timeout (second conjunct, where both peers time out), the election would
have gone on to probe peer 3 and returned `Win`. -/
theorem elect_transport_error_cex :
    elect nodeA envErr2 [] = some (Except.error Err.readIo)
    ∧ elect nodeA envTO [] = some (Except.ok (ElectionResult.Win,
        [(2, Message.new 1 MessageType.Elect), (3, Message.new 1 MessageType.Elect)])) := by
  decide

/-- C4 (amended): during `elect`, only a read timeout is treated as
skip-and-continue; any error from `send_elect_message` for one higher
peer (send failure, non-timeout read error, zero-byte read, malformed or
non-`Alive` reply, missing connection) aborts the election loop
immediately, propagating that error. -/
theorem electLoop_error_aborts (sender_id : Nat) (env : Env) (p : Peer)
    (rest : List Peer) (w : Wire) :
    (∀ e, send_elect_message sender_id p env w = Except.error e →
        electLoop sender_id env (p :: rest) w = Except.error e)
    ∧ (∀ w1, send_elect_message sender_id p env w
          = Except.ok (ElectResponse.ResponseTimeOut, w1) →
        electLoop sender_id env (p :: rest) w = electLoop sender_id env rest w1) := by
  constructor
  · intro e h
    rw [electLoop, h]
  · intro w1 h
    rw [electLoop, h]

/-- Witness for C4 (amended): probing a peer whose connection handle is
absent aborts the loop with the connection-missing error. -/
theorem electLoop_error_aborts_witness :
    electLoop 1 envTO [peerNoConn] [] = Except.error Err.connMissing :=
  (electLoop_error_aborts 1 envTO peerNoConn [] []).1 Err.connMissing (by decide)

/-! ## Claim C10: u8 overflow of the range start in elect -/

/-- C10: `elect` computes the start of its peer range as `node.id + 1` in
`u8` arithmetic, which overflows exactly at `node.id = 255` (modelled as
the `none` outcome); for every id below 255 the call is total, and the
range holds exactly the peers with id strictly greater than the own
id. -/
theorem elect_u8_overflow (node : Node) (env : Env) (w : Wire) :
    (node.id = 255 → elect node env w = none)
    ∧ (node.id < 255 → ∃ r, elect node env w = some r)
    ∧ (node.id < 255 →
        higher_peers node = some (node.peers.filter fun p => node.id < p.id)) := by
  refine ⟨?_, ?_, ?_⟩
  · intro h
    simp [elect, higher_peers, u8_add, h]
  · intro h
    exact ⟨_, elect_eq_loop node env w h⟩
  · intro h
    have h2 : node.id + 1 < 256 := by omega
    have h3 : (node.peers.filter fun p => node.id + 1 ≤ p.id)
        = node.peers.filter fun p => node.id < p.id :=
      List.filter_congr fun p _ => decide_eq_decide.mpr (by omega)
    simp [higher_peers, u8_add, h2, h3]

/-- Witness for C10: a node with id 255 makes `elect` hit the overflow,
and a node with id 1 does not. -/
theorem elect_u8_overflow_witness :
    elect node255 envTO [] = none ∧ ∃ r, elect nodeA envTO [] = some r :=
  ⟨(elect_u8_overflow node255 envTO []).1 rfl,
   (elect_u8_overflow nodeA envTO []).2.1 (by decide)⟩

/-! ## Claim C6: codec round-trip -/

/-- C6: for every message whose sender id is a `u8` value and whose type
is one of the four protocol types, decoding the encoded form gives back
the message: `str_to_message (message_to_str m) = Ok m`. -/
theorem codec_roundtrip : ∀ i : Nat, i < 256 → ∀ t : MessageType,
    str_to_message (message_to_str (Message.new i t)) = Except.ok (Message.new i t) := by
  decide

/-- Witness for C6 at sender id 7 and type `Victory`. -/
theorem codec_roundtrip_witness :
    str_to_message (message_to_str (Message.new 7 MessageType.Victory))
      = Except.ok (Message.new 7 MessageType.Victory) :=
  codec_roundtrip 7 (by decide) MessageType.Victory

/-! ## Claim C7: shape of the encoded wire form -/

/-- C7: the encoder emits the bare `<sender_id>:<type_code>` digits with
no trailing newline character — here evaluated at the `HeartBeat`
message of sender 1, whose wire form is exactly the three characters
`1`, `:`, `0`.  The claim that the encoded form is terminated by a
newline is false of `message_to_str`; the receive path
(`receive_message`) frames by whole lines, so the intended framing is
newline-terminated and the encoder omits the terminator. -/
theorem message_to_str_no_trailing_newline :
    message_to_str (Message.new 1 MessageType.HeartBeat) = ['1', ':', '0']
    ∧ '\n' ∉ message_to_str (Message.new 1 MessageType.HeartBeat) := by
  decide

/-! ## Claim C8: decoder error behaviour -/

/-- C8 counterexample: an input with an extra `:`-separated field beyond
`<sender_id>:<type_code>` is accepted, not rejected — the decoder reads
only the first two fields. -/
theorem str_to_message_extra_fields_cex :
    str_to_message ['5', ':', '1', ':', '2'] = Except.ok (Message.new 5 MessageType.Elect) := by
  decide

/-- C8 (amended): an input without `:` always decodes to an error, and
whenever decoding succeeds, the sender field parsed as a `u8` (so
non-numeric or out-of-range senders are rejected, and the resulting
sender id is below 256) and the type field is exactly one of the four
one-digit codes (so type codes outside 0..=3 are rejected); extra fields
beyond the first two are however ignored. -/
theorem str_to_message_error_conditions (s : Str) :
    (':' ∉ s → ∃ e, str_to_message s = Except.error e)
    ∧ (∀ m, str_to_message s = Except.ok m →
        m.sender_id < 256
        ∧ ∃ idStr tyStr rest, splitColon (trimStr s) = idStr :: tyStr :: rest
            ∧ parse_u8 idStr = some m.sender_id
            ∧ MessageType.fromStr tyStr = some m.message_type) := by
  constructor
  · intro hc
    have hc2 : ':' ∉ trimStr s := fun hm => hc (mem_of_mem_trimStr hm)
    unfold str_to_message Message.fromStr
    rw [splitColon_no_colon _ hc2]
    cases hp : parse_u8 (trimStr s) with
    | none => exact ⟨Err.senderParseErr, by simp [hp]⟩
    | some i => exact ⟨Err.failReadType, by simp [hp]⟩
  · intro m h
    unfold str_to_message Message.fromStr at h
    cases hsp : splitColon (trimStr s) with
    | nil => rw [hsp] at h; simp at h
    | cons idStr rest =>
      rw [hsp] at h
      dsimp only at h
      cases hp : parse_u8 idStr with
      | none => rw [hp] at h; simp at h
      | some i =>
        rw [hp] at h
        dsimp only at h
        cases rest with
        | nil => simp at h
        | cons tyStr rest2 =>
          dsimp only at h
          cases ht : MessageType.fromStr tyStr with
          | none => rw [ht] at h; simp at h
          | some t =>
            rw [ht] at h
            simp only [Except.ok.injEq] at h
            subst h
            exact ⟨parse_u8_lt hp, idStr, tyStr, rest2, rfl, hp, ht⟩

/-- Witness for C8 (amended): the colon-free input `foo` decodes to an
error, and the successful decode of `5:1` has its fields parsed as
described. -/
theorem str_to_message_error_conditions_witness :
    (∃ e, str_to_message ['f', 'o', 'o'] = Except.error e)
    ∧ ((Message.new 5 MessageType.Elect).sender_id < 256
        ∧ ∃ idStr tyStr rest, splitColon (trimStr ['5', ':', '1']) = idStr :: tyStr :: rest
            ∧ parse_u8 idStr = some (Message.new 5 MessageType.Elect).sender_id
            ∧ MessageType.fromStr tyStr = some (Message.new 5 MessageType.Elect).message_type) :=
  ⟨(str_to_message_error_conditions ['f', 'o', 'o']).1 (by decide),
   (str_to_message_error_conditions ['5', ':', '1']).2 (Message.new 5 MessageType.Elect) (by decide)⟩

/-! ## Claim C3: inbound `Elect` handling -/

/-- C3: the inbound handler of bully.rs reads an `Elect` frame but sends
nothing in response — the loop body after `receive_message` is a bare
`TODO` stub.  At the concrete frame `1:1` (an `Elect` from node 1,
which has a lower id than any receiver with id above 1), the message is
decoded successfully, yet the handler step leaves the wire untouched: no
`Alive` reply is written and no election is started. -/
theorem handle_message_elect_no_reply :
    receive_message ['1', ':', '1', '\n'] = Except.ok (Message.new 1 MessageType.Elect)
    ∧ handle_message_step ['1', ':', '1', '\n'] [] = Except.ok [] := by
  decide

theorem sendToAll_mem (sender_id : Nat) (t : MessageType) :
    ∀ (ps : List Peer) (env : Env) (w w2 : Wire),
      sendToAll sender_id t ps env w = Except.ok w2 →
      ∀ x ∈ w2, x ∈ w ∨ ∃ p ∈ ps, x = (p.id, Message.new sender_id t) := by
  intro ps
  induction ps with
  | nil =>
    intro env w w2 h x hx
    simp only [sendToAll, Except.ok.injEq] at h
    subst h
    exact Or.inl hx
  | cons p rest ih =>
    intro env w w2 h x hx
    rw [sendToAll] at h
    cases hs : send_message sender_id p t env w with
    | error e => rw [hs] at h; simp at h
    | ok w1 =>
      rw [hs] at h
      dsimp only at h
      rcases ih env w1 w2 h x hx with hmem | ⟨q, hq, hxq⟩
      · rw [send_message_ok_eq hs] at hmem
        rcases List.mem_append.mp hmem with hmem | hmem
        · exact Or.inl hmem
        · refine Or.inr ⟨p, List.mem_cons_self p rest, ?_⟩
          simpa using hmem
      · exact Or.inr ⟨q, List.mem_cons_of_mem _ hq, hxq⟩

/-! ## Claim C5: heartbeat recipients -/

/-- C5: one tick of the heartbeat loop sends `HeartBeat` to exactly the
peers with id strictly below the own id when the node believes itself
leader, and sends nothing when `leader` is unset or set to another node;
consequently every message the tick adds to the wire is a `HeartBeat`
addressed to a receiver with id strictly below the own id. -/
theorem heartbeat_recipients (node : Node) (env : Env) (w : Wire) :
    (node.leader = some node.id →
      heartbeat_step node env w
        = sendToAll node.id MessageType.HeartBeat
            (node.peers.filter fun p => p.id < node.id) env w)
    ∧ (node.leader = none → heartbeat_step node env w = Except.ok w)
    ∧ (∀ l, node.leader = some l → l ≠ node.id → heartbeat_step node env w = Except.ok w)
    ∧ (∀ w2, heartbeat_step node env w = Except.ok w2 →
        ∀ r m, (r, m) ∈ w2 → (r, m) ∈ w
          ∨ (r < node.id ∧ m = Message.new node.id MessageType.HeartBeat)) := by
  refine ⟨?_, ?_, ?_, ?_⟩
  · intro h
    simp [heartbeat_step, h]
  · intro h
    simp [heartbeat_step, h]
  · intro l h hne
    simp [heartbeat_step, h, hne]
  · intro w2 h r m hm
    unfold heartbeat_step at h
    cases hl : node.leader with
    | none =>
      rw [hl] at h
      simp only [Except.ok.injEq] at h
      subst h
      exact Or.inl hm
    | some l =>
      rw [hl] at h
      dsimp only at h
      by_cases hle : l = node.id
      · rw [if_neg (by simpa using hle)] at h
        rcases sendToAll_mem node.id MessageType.HeartBeat _ env w w2 h (r, m) hm
          with hmem | ⟨p, hp, hx⟩
        · exact Or.inl hmem
        · obtain ⟨hpm, hpid⟩ := List.mem_filter.mp hp
          obtain ⟨h1, h2⟩ := Prod.mk.injEq .. ▸ hx
          refine Or.inr ⟨?_, h2⟩
          rw [h1]
          exact of_decide_eq_true hpid
      · rw [if_pos (by simpa using hle)] at h
        simp only [Except.ok.injEq] at h
        subst h
        exact Or.inl hm

/-- Witness for C5: node 2 believing itself leader heartbeats exactly its
lower peer set. -/
theorem heartbeat_recipients_witness :
    heartbeat_step nodeL envTO []
      = sendToAll nodeL.id MessageType.HeartBeat
          (nodeL.peers.filter fun p => p.id < nodeL.id) envTO [] :=
  (heartbeat_recipients nodeL envTO []).1 rfl

/-! ## Claim C2: the leader-check loop body -/

/-- C2: one iteration of the leader-check loop does nothing when
`last_leader_heartbeat` is unset (so a freshly started node never opens
an election on this path); when the last heartbeat is older than
`LEADER_CHECK_INTERVAL`, it clears `leader` and `last_leader_heartbeat`
and runs `elect` — keeping the cleared state on `Fail`, and on `Win`
setting `leader` to the own id and broadcasting `Victory` to every peer
with id strictly below the own id. -/
theorem check_leader_spec (now : Nat) (env : Env) (node : Node) (w : Wire) :
    (node.last_leader_heartbeat = none →
      check_leader_step now env node w = some (Except.ok (node, w)))
    ∧ (∀ last, node.last_leader_heartbeat = some last → last ≤ now →
        LEADER_CHECK_INTERVAL < now - last →
        (∀ w1, elect (clearLeader node) env w = some (Except.ok (ElectionResult.Fail, w1)) →
          check_leader_step now env node w = some (Except.ok (clearLeader node, w1)))
        ∧ (∀ w1, elect (clearLeader node) env w = some (Except.ok (ElectionResult.Win, w1)) →
          check_leader_step now env node w
            = some ((sendToAll node.id MessageType.Victory
                (node.peers.filter fun p => p.id < node.id) env w1).map
                fun w2 => (wonLeader node, w2)))) := by
  constructor
  · intro h
    simp [check_leader_step, h]
  · intro last hlast hle hgt
    have hnlt : ¬ now < last := by omega
    constructor
    · intro w1 helect
      simp [check_leader_step, hlast, hnlt, hgt, helect]
    · intro w1 helect
      rw [check_leader_step, hlast]
      dsimp only
      rw [if_neg hnlt, if_pos hgt, helect]
      dsimp only
      unfold announce_victory wonLeader
      dsimp only
      cases ha : sendToAll node.id MessageType.Victory
          (node.peers.filter fun p => p.id < node.id) env w1 with
      | error e => simp [ha, Except.map]
      | ok w2 => simp [ha, Except.map]

/-- Witness for C2: node 2 (leader 3 last heard at time 0) at time 4000
clears its state, wins the election against the timed-out peer 3, and
broadcasts `Victory` to its lower peer 1. -/
theorem check_leader_spec_witness :
    check_leader_step 4000 envTO nodeB []
      = some (Except.ok (wonLeader nodeB,
          [(3, Message.new 2 MessageType.Elect), (1, Message.new 2 MessageType.Victory)])) := by
  have h := ((check_leader_spec 4000 envTO nodeB []).2 0 rfl (by decide) (by decide)).2
      [(3, Message.new 2 MessageType.Elect)] (by decide)
  rw [h]
  decide

theorem connectAux_spec (outcome : Nat → DialOutcome) :
    ∀ (count attempt : Nat),
      (connectAux outcome count attempt).attempts ≤ attempt + count + 1
      ∧ (∀ n, connectAux outcome count attempt = ConnectResult.connected n →
          attempt < n ∧ outcome (n - 1) = DialOutcome.ok
            ∧ ∀ j, attempt ≤ j → j < n - 1 → outcome j = DialOutcome.timedOut)
      ∧ (∀ n, connectAux outcome count attempt = ConnectResult.fatalErr n →
          attempt < n ∧ outcome (n - 1) = DialOutcome.otherErr
            ∧ ∀ j, attempt ≤ j → j < n - 1 → outcome j = DialOutcome.timedOut)
      ∧ (∀ n, connectAux outcome count attempt = ConnectResult.fatalTimeout n →
          n = attempt + count + 1 ∧ ∀ j, attempt ≤ j → j < n → outcome j = DialOutcome.timedOut) := by
  intro count
  induction count with
  | zero =>
    intro attempt
    cases ho : outcome attempt with
    | timedOut =>
      refine ⟨?_, ?_, ?_, ?_⟩
      · simp [connectAux, ho, ConnectResult.attempts]
      · intro n h; simp [connectAux, ho] at h
      · intro n h; simp [connectAux, ho] at h
      · intro n h
        simp only [connectAux, ho, ConnectResult.fatalTimeout.injEq] at h
        refine ⟨by omega, fun j hj1 hj2 => ?_⟩
        have : j = attempt := by omega
        rw [this, ho]
    | otherErr =>
      refine ⟨?_, ?_, ?_, ?_⟩
      · simp [connectAux, ho, ConnectResult.attempts]
      · intro n h; simp [connectAux, ho] at h
      · intro n h
        simp only [connectAux, ho, ConnectResult.fatalErr.injEq] at h
        refine ⟨by omega, by rw [show n - 1 = attempt by omega, ho], fun j hj1 hj2 => ?_⟩
        omega
      · intro n h; simp [connectAux, ho] at h
    | ok =>
      refine ⟨?_, ?_, ?_, ?_⟩
      · simp [connectAux, ho, ConnectResult.attempts]
      · intro n h
        simp only [connectAux, ho, ConnectResult.connected.injEq] at h
        refine ⟨by omega, by rw [show n - 1 = attempt by omega, ho], fun j hj1 hj2 => ?_⟩
        omega
      · intro n h; simp [connectAux, ho] at h
      · intro n h; simp [connectAux, ho] at h
  | succ c ih =>
    intro attempt
    cases ho : outcome attempt with
    | timedOut =>
      obtain ⟨ih1, ih2, ih3, ih4⟩ := ih (attempt + 1)
      have heq : connectAux outcome (c + 1) attempt = connectAux outcome c (attempt + 1) := by
        simp [connectAux, ho]
      refine ⟨?_, ?_, ?_, ?_⟩
      · rw [heq]; omega
      · intro n h
        rw [heq] at h
        obtain ⟨ha, hb, hc⟩ := ih2 n h
        refine ⟨by omega, hb, fun j hj1 hj2 => ?_⟩
        rcases Nat.eq_or_lt_of_le hj1 with hj | hj
        · rw [← hj, ho]
        · exact hc j hj hj2
      · intro n h
        rw [heq] at h
        obtain ⟨ha, hb, hc⟩ := ih3 n h
        refine ⟨by omega, hb, fun j hj1 hj2 => ?_⟩
        rcases Nat.eq_or_lt_of_le hj1 with hj | hj
        · rw [← hj, ho]
        · exact hc j hj hj2
      · intro n h
        rw [heq] at h
        obtain ⟨ha, hb⟩ := ih4 n h
        refine ⟨by omega, fun j hj1 hj2 => ?_⟩
        rcases Nat.eq_or_lt_of_le hj1 with hj | hj
        · rw [← hj, ho]
        · exact hb j hj hj2
    | otherErr =>
      refine ⟨?_, ?_, ?_, ?_⟩
      · simp [connectAux, ho, ConnectResult.attempts]
      · intro n h; simp [connectAux, ho] at h
      · intro n h
        simp only [connectAux, ho, ConnectResult.fatalErr.injEq] at h
        refine ⟨by omega, by rw [show n - 1 = attempt by omega, ho], fun j hj1 hj2 => ?_⟩
        omega
      · intro n h; simp [connectAux, ho] at h
    | ok =>
      refine ⟨?_, ?_, ?_, ?_⟩
      · simp [connectAux, ho, ConnectResult.attempts]
      · intro n h
        simp only [connectAux, ho, ConnectResult.connected.injEq] at h
        refine ⟨by omega, by rw [show n - 1 = attempt by omega, ho], fun j hj1 hj2 => ?_⟩
        omega
      · intro n h; simp [connectAux, ho] at h
      · intro n h; simp [connectAux, ho] at h

/-! ## Claim C9: the startup dial retry policy -/

/-- C9 counterexample: when every dial attempt times out, `connect` makes
eleven attempts — the budget `RETRY = 10` counts the retries, not the
attempts, so the attempt count exceeds `RETRY`.  The claim that at most
`RETRY = 10` attempts are made is therefore false. -/
theorem connect_attempts_cex :
    connect dialAllTimeout = ConnectResult.fatalTimeout 11
    ∧ RETRY < (connect dialAllTimeout).attempts := by
  decide

/-- C9 (amended): the startup dial of one peer makes at most
`RETRY + 1 = 11` connection attempts.  The first `RETRY` timeouts each
consume one unit of budget and are retried; a timeout with exhausted
budget — necessarily on attempt 11 — returns the timeout error; a
non-timeout connect error returns immediately (every earlier attempt
having timed out); success returns the stream (every earlier attempt
having timed out). -/
theorem connect_retry_spec (outcome : Nat → DialOutcome) :
    (connect outcome).attempts ≤ RETRY + 1
    ∧ (∀ n, connect outcome = ConnectResult.connected n →
        outcome (n - 1) = DialOutcome.ok
          ∧ ∀ j, j < n - 1 → outcome j = DialOutcome.timedOut)
    ∧ (∀ n, connect outcome = ConnectResult.fatalErr n →
        outcome (n - 1) = DialOutcome.otherErr
          ∧ ∀ j, j < n - 1 → outcome j = DialOutcome.timedOut)
    ∧ (∀ n, connect outcome = ConnectResult.fatalTimeout n →
        n = RETRY + 1 ∧ ∀ j, j < n → outcome j = DialOutcome.timedOut) := by
  obtain ⟨h1, h2, h3, h4⟩ := connectAux_spec outcome RETRY 0
  refine ⟨by simpa using h1, ?_, ?_, ?_⟩
  · intro n h
    obtain ⟨-, hb, hc⟩ := h2 n h
    exact ⟨hb, fun j hj => hc j (Nat.zero_le j) hj⟩
  · intro n h
    obtain ⟨-, hb, hc⟩ := h3 n h
    exact ⟨hb, fun j hj => hc j (Nat.zero_le j) hj⟩
  · intro n h
    obtain ⟨ha, hb⟩ := h4 n h
    exact ⟨by omega, fun j hj => hb j (Nat.zero_le j) hj⟩

/-- Witness for C9 (amended): with every attempt timing out, the dial
fails after eleven attempts, the eleventh of which indeed timed out. -/
theorem connect_retry_spec_witness :
    dialAllTimeout 10 = DialOutcome.timedOut :=
  ((connect_retry_spec dialAllTimeout).2.2.2 11 (by decide)).2 10 (by decide)

end LeaderElect
